import Mathlib

/-!
Verification development for the stock_valuation_calculator repository.

The definitions below are a shallow embedding of the Python sources:
`config.py`, `dcf_calculator.py`, `turbo_cache.py`, `valuation.py`,
`wacc_updater.py`, `turbo_industry_mapper.py` and `data_processor.py`.
Python floats are modelled as exact rationals (ℚ), Python dict/list state
is passed explicitly, fallible code returns `Option`/`Except`, and the
external numeric root finder (`scipy.optimize.fsolve`) is modelled as an
oracle parameter.  Pandas `str.contains` is modelled as case-insensitive
substring containment (its semantics for patterns free of regex
metacharacters, which is how the repository uses it).
-/

namespace StockVal

/-! ### ASCII string helpers (Python `lower`, `upper`, `strip`, `in`, `split`) -/

def lowerChar (c : Char) : Char :=
  if 'A' ≤ c ∧ c ≤ 'Z' then Char.ofNat (c.toNat + 32) else c

def upperChar (c : Char) : Char :=
  if 'a' ≤ c ∧ c ≤ 'z' then Char.ofNat (c.toNat - 32) else c

def lowerStr (s : String) : String := String.mk (s.toList.map lowerChar)

def upperStr (s : String) : String := String.mk (s.toList.map upperChar)

def isWsChar (c : Char) : Bool :=
  c == ' ' || c == '\t' || c == '\n' || c == '\r'

/-- Check that the first list is an initial segment of the second. -/
def isStart : List Char → List Char → Bool
  | [], _ => true
  | _ :: _, [] => false
  | a :: as, b :: bs => a == b && isStart as bs

/-- Substring containment: Python `needle in hay`, and pandas
`Series.str.contains` for a pattern without regex metacharacters. -/
def strContains (hay needle : String) : Bool :=
  hay.toList.tails.any (fun t => isStart needle.toList t)

/-- Python `str.startswith`. -/
def strStarts (s pre : String) : Bool := isStart pre.toList s.toList

/-- Python `str.strip()` (whitespace trim at both ends). -/
def stripStr (s : String) : String :=
  String.mk (((s.toList.dropWhile isWsChar).reverse.dropWhile isWsChar).reverse)

/-- First whitespace-separated token: Python `s.split()[0]`, which raises
`IndexError` when the string has no token; the `none` result models that. -/
def firstToken (s : String) : Option String :=
  let l := s.toList.dropWhile isWsChar
  if l.isEmpty then none else some (String.mk (l.takeWhile (fun c => !(isWsChar c))))

/-! ### config.py -/

def PERPETUAL_GROWTH_RATE : ℚ := 1/40

def FORECAST_YEARS : ℕ := 10

def DEFAULT_WACC : ℚ := 223/2500

/-! ### dcf_calculator.py -/

/-- Growth rate the projection loop applies in forecast year `year`
(`DCFCalculator._project_future_fcf`, lines 90-99): the stock's historical
`growth_rate` for years 1-5, then a linear blend that fades to
`PERPETUAL_GROWTH_RATE` over years 6-10. -/
def yearGrowthRate (growth_rate : ℚ) (year : ℕ) : ℚ :=
  if year ≤ 5 then growth_rate
  else
    let decline_factor : ℚ := ((year : ℚ) - 5) / 5
    growth_rate * (1 - decline_factor) + PERPETUAL_GROWTH_RATE * decline_factor

/-- Running value of the projection loop after `t` iterations: the projected
free cash flow of forecast year `t` (year 0 is the latest actual figure). -/
def projectFcf (latest_fcf growth_rate : ℚ) : ℕ → ℚ
  | 0 => latest_fcf
  | t + 1 => projectFcf latest_fcf growth_rate t * (1 + yearGrowthRate growth_rate (t + 1))

/-- `DCFCalculator._project_future_fcf`: the list of projected cash flows for
forecast years 1..FORECAST_YEARS. -/
def project_future_fcf (latest_fcf growth_rate : ℚ) : List ℚ :=
  (List.range FORECAST_YEARS).map (fun i => projectFcf latest_fcf growth_rate (i + 1))

/-- `DCFCalculator._calculate_terminal_value`. -/
def calculate_terminal_value (final_year_fcf wacc : ℚ) : ℚ :=
  final_year_fcf * (1 + PERPETUAL_GROWTH_RATE) / (wacc - PERPETUAL_GROWTH_RATE)

/-- Index-carrying loop of `DCFCalculator._calculate_present_value`. -/
def pvAux : List ℚ → ℚ → ℕ → List ℚ
  | [], _, _ => []
  | fcf :: rest, wacc, i => fcf / (1 + wacc) ^ (i + 1) :: pvAux rest wacc (i + 1)

/-- `DCFCalculator._calculate_present_value`. -/
def calculate_present_value (future_fcf : List ℚ) (wacc : ℚ) : List ℚ :=
  pvAux future_fcf wacc 0

/-- Stock data dictionary as consumed by `calculate_dcf_valuation`; the
`error` field models the optional `'error'` key of the Python dict. -/
structure StockData where
  error : Option String
  symbol : String
  latest_fcf : ℚ
  growth_rate : ℚ
  shares_outstanding : ℚ
  current_price : ℚ
deriving DecidableEq, Repr

structure DCFResult where
  symbol : String
  current_price : ℚ
  intrinsic_value : ℚ
  upside_downside : ℚ
  irr : Option ℚ
  wacc : ℚ
  growth_rate : ℚ
  latest_fcf : ℚ
  enterprise_value : ℚ
  terminal_value : ℚ
  pv_terminal : ℚ
  future_fcf : List ℚ
  pv_fcf : List ℚ
  shares_outstanding : ℚ
  forecast_years : ℕ
  perpetual_growth_rate : ℚ
deriving DecidableEq, Repr

inductive DCFError
  | propagated (msg : String)
  | invalidFreeCashFlow
  | discountRateTooLow
  | calcFailed (msg : String)
deriving DecidableEq, Repr

inductive DCFOutcome
  | err (e : DCFError)
  | ok (r : DCFResult)
deriving DecidableEq, Repr

/-- Oracle modelling `scipy.optimize.fsolve(npv, 0.1)`: given the cash-flow
series it either produces a root of the NPV function or fails
(non-convergence / exception), which the code maps to `None`. -/
def IrrSolver : Type := List ℚ → Option ℚ

/-- Cash-flow series built by `DCFCalculator._calculate_irr` (lines 128-134):
initial investment, then per-share cash flows, the last one augmented by the
terminal value per share. -/
def irrCashFlows (current_price : ℚ) (fcf_per_share : List ℚ) (last tvps : ℚ) : List ℚ :=
  -current_price :: (fcf_per_share.dropLast ++ [last + tvps])

/-- `DCFCalculator._calculate_irr`.  A zero share count or an empty cash-flow
list raises in Python and is caught by the surrounding `try`, yielding `None`;
an out-of-bounds root (outside [-0.9, 5.0]) is discarded as `None`. -/
def calculate_irr (solver : IrrSolver) (current_price : ℚ) (future_fcf : List ℚ)
    (terminal_value shares_outstanding : ℚ) : Option ℚ :=
  if shares_outstanding = 0 then none
  else
    let fcf_per_share := future_fcf.map (· / shares_outstanding)
    let terminal_value_per_share := terminal_value / shares_outstanding
    match fcf_per_share.getLast? with
    | none => none
    | some last =>
      match solver (irrCashFlows current_price fcf_per_share last terminal_value_per_share) with
      | none => none
      | some irr => if irr < -(9/10) ∨ irr > 5 then none else some irr

/-- Enterprise value as computed inline in `calculate_dcf_valuation`
(lines 46-57): discounted projected cash flows plus discounted terminal value. -/
def enterprise_value (latest_fcf growth_rate wacc : ℚ) : ℚ :=
  let future_fcf := project_future_fcf latest_fcf growth_rate
  (calculate_present_value future_fcf wacc).sum +
    calculate_terminal_value (future_fcf.getLastD 0) wacc / (1 + wacc) ^ FORECAST_YEARS

/-- Intrinsic value per share as computed inline in `calculate_dcf_valuation`. -/
def intrinsic_value (latest_fcf growth_rate shares_outstanding wacc : ℚ) : ℚ :=
  enterprise_value latest_fcf growth_rate wacc / shares_outstanding

/-- `DCFCalculator.calculate_dcf_valuation`.  The ambient `try`/`except`
converts any exception into an error dict; the two divisions by
`shares_outstanding` and `current_price` are its only exception sources once
the preconditions hold, so they appear as an explicit `calcFailed` branch. -/
def calculate_dcf_valuation (solver : IrrSolver) (stock_data : StockData) (wacc : ℚ) : DCFOutcome :=
  match stock_data.error with
  | some msg => .err (.propagated msg)
  | none =>
    if stock_data.latest_fcf ≤ 0 then .err .invalidFreeCashFlow
    else if wacc ≤ PERPETUAL_GROWTH_RATE then .err .discountRateTooLow
    else if stock_data.shares_outstanding = 0 ∨ stock_data.current_price = 0 then
      .err (.calcFailed "DCF计算失败: division by zero")
    else
      let future_fcf := project_future_fcf stock_data.latest_fcf stock_data.growth_rate
      let terminal_value := calculate_terminal_value (future_fcf.getLastD 0) wacc
      let pv_fcf := calculate_present_value future_fcf wacc
      let pv_terminal := terminal_value / (1 + wacc) ^ FORECAST_YEARS
      let ev := enterprise_value stock_data.latest_fcf stock_data.growth_rate wacc
      let iv := intrinsic_value stock_data.latest_fcf stock_data.growth_rate
        stock_data.shares_outstanding wacc
      let irr := calculate_irr solver stock_data.current_price future_fcf terminal_value
        stock_data.shares_outstanding
      .ok {
        symbol := stock_data.symbol
        current_price := stock_data.current_price
        intrinsic_value := iv
        upside_downside := (iv - stock_data.current_price) / stock_data.current_price
        irr := irr
        wacc := wacc
        growth_rate := stock_data.growth_rate
        latest_fcf := stock_data.latest_fcf
        enterprise_value := ev
        terminal_value := terminal_value
        pv_terminal := pv_terminal
        future_fcf := future_fcf
        pv_fcf := pv_fcf
        shares_outstanding := stock_data.shares_outstanding
        forecast_years := FORECAST_YEARS
        perpetual_growth_rate := PERPETUAL_GROWTH_RATE }

/-- Projection of a `DCFOutcome` onto the projected cash-flow list. -/
def outcomeFutureFcf : DCFOutcome → Option (List ℚ)
  | .ok r => some r.future_fcf
  | .err _ => none

/-- Projection of a `DCFOutcome` onto the enterprise value. -/
def outcomeEnterprise : DCFOutcome → Option ℚ
  | .ok r => some r.enterprise_value
  | .err _ => none

/-- A concrete solver oracle that always fails (models fsolve non-convergence). -/
def solverFail : IrrSolver := fun _ => none

/-- Projection of a `DCFOutcome` onto the intrinsic value per share. -/
def outcomeIntrinsic : DCFOutcome → Option ℚ
  | .ok r => some r.intrinsic_value
  | .err _ => none

/-! ### WACC catalog rows (data_processor.py / wacc_processor.py output) -/

structure WaccRow where
  industry : String
  region : String
  wacc : ℚ
deriving DecidableEq, Repr

/-! ### turbo_cache.py — build-time 5-tier cascade (`_preprocess_data`, lines 148-212) -/

/-- Country→WACC-region mapping (`country_mapping`, lines 149-157);
`country_mapping.get(country, 'US')` defaults every other country to US. -/
def country_region : String → String
  | "China" => "China"
  | "Hong Kong" => "China"
  | "Macao" => "China"
  | "Taiwan" => "China"
  | "Japan" => "Japan"
  | "United States" => "US"
  | "US" => "US"
  | _ => "US"

/-- Exact lookup in the `{(industry, region): wacc}` dictionary. -/
def lookupExact (wacc_lookup : List ((String × String) × ℚ)) (key : String × String) : Option ℚ :=
  (wacc_lookup.find? (fun e => e.1 = key)).map (·.2)

/-- Fuzzy scan of the lookup dictionary in its iteration (insertion) order:
first entry in the given region whose industry label contains the cleaned
query (`industry_clean in lookup_industry`, lines 185-190 / 201-206). -/
def findFuzzy (wacc_lookup : List ((String × String) × ℚ)) (region industry_clean : String) :
    Option ℚ :=
  (wacc_lookup.find? (fun e => e.1.2 = region ∧ strContains e.1.1 industry_clean = true)).map (·.2)

/-- Per-ticker WACC resolution of the build loop (lines 162-212): exact match
in the own region, fuzzy match in the own region, US exact, US fuzzy, and a
12% default tagged `默认值` (Default). -/
def resolveWacc (wacc_lookup : List ((String × String) × ℚ)) (industry country : String) :
    ℚ × String :=
  let region := country_region country
  let industry_clean := lowerStr (stripStr industry)
  match lookupExact wacc_lookup (industry_clean, region) with
  | some w => (w, region ++ "精确匹配")
  | none =>
    match findFuzzy wacc_lookup region industry_clean with
    | some w => (w, region ++ "模糊匹配")
    | none =>
      if region ≠ "US" then
        match lookupExact wacc_lookup (industry_clean, "US") with
        | some w => (w, "美国兜底")
        | none =>
          match findFuzzy wacc_lookup "US" industry_clean with
          | some w => (w, "美国模糊兜底")
          | none => (3/25, "默认值")
      else (3/25, "默认值")

/-! ### turbo_cache.py — on-disk cache load (`_load_from_cache`, `_initialize`) -/

structure CacheEntry where
  wacc : ℚ
  industry : String
  company_name : String
  sector : String
deriving DecidableEq, Repr

inductive CacheFileState
  | missing
  | corrupt
  | valid (payload : List (String × CacheEntry))
deriving DecidableEq

/-- On-disk state of the turbo cache: the compressed stock→WACC payload and
the `cache_version` string stored inside `quick_index.json` (`none` when the
quick-index file is absent). -/
structure TurboCacheDisk where
  stock_wacc_file : CacheFileState
  quick_index_version : Option String
deriving DecidableEq

/-- Version string `_preprocess_data` writes into the quick index (line 236). -/
def CACHE_VERSION : String := "2.0"

/-- `TurboCache._load_from_cache` (lines 52-63): a missing payload file falls
through to an implicit falsy `None`, a gzip/json failure is caught and yields
`False`; a readable payload is loaded unconditionally — the stored
`cache_version` is never consulted on this path. -/
def load_from_cache (disk : TurboCacheDisk) : Option (List (String × CacheEntry)) :=
  match disk.stock_wacc_file with
  | .missing => none
  | .corrupt => none
  | .valid payload => some payload

/-- `TurboCache._initialize` (lines 41-50) runs `_preprocess_data` (the full
rebuild) exactly when `_load_from_cache` failed. -/
def initialize_rebuilds (disk : TurboCacheDisk) : Bool :=
  (load_from_cache disk).isNone

/-! ### turbo_cache.py / turbo_industry_mapper.py — query-time lookups -/

/-- `TurboCache.get_stock_wacc` (lines 254-274): exact key lookup after
stripping, then a case-insensitive scan in cache-iteration order. -/
def get_stock_wacc (is_initialized : Bool) (cache : List (String × CacheEntry))
    (symbol : String) : Option CacheEntry :=
  if !is_initialized then none
  else
    let s := stripStr symbol
    match cache.find? (fun e => e.1 = s) with
    | some e => some e.2
    | none =>
      (cache.find? (fun e => upperStr e.1 = upperStr s ∨ lowerStr e.1 = lowerStr s)).map (·.2)

/-- `TurboIndustryMapper.get_wacc_direct` (lines 63-80): a cache miss, an
uninitialized cache, or a falsy (zero) stored WACC all yield the 12% default. -/
def get_wacc_direct (is_initialized : Bool) (cache : List (String × CacheEntry))
    (symbol : String) : ℚ :=
  if !is_initialized then 3/25
  else
    match get_stock_wacc is_initialized cache symbol with
    | some info => if info.wacc ≠ 0 then info.wacc else 3/25
    | none => 3/25

/-- `TurboIndustryMapper.get_stock_info` (lines 48-61). -/
def mapper_get_stock_info (is_initialized : Bool) (cache : List (String × CacheEntry))
    (symbol : String) : Option CacheEntry :=
  if !is_initialized then none
  else get_stock_wacc is_initialized cache symbol

/-! ### wacc_updater.py / data_processor.py — live industry fallback -/

/-- Hard-coded industry→default-WACC table of `WACCUpdater._get_default_wacc`
(lines 98-119), 20 entries in source order. -/
def default_wacc_mapping : List (String × ℚ) :=
  [("software", 19/200), ("technology", 19/200), ("internet", 11/100),
   ("advertising", 17/200), ("banking", 3/40), ("insurance", 2/25),
   ("retail", 9/100), ("energy", 2/25), ("healthcare", 17/200),
   ("manufacturing", 17/200), ("real estate", 3/40), ("utilities", 13/200),
   ("telecom", 7/100), ("consumer", 17/200), ("media", 9/100),
   ("pharma", 17/200), ("biotech", 3/25), ("auto", 9/100),
   ("transportation", 17/200), ("industrial", 17/200)]

/-- `WACCUpdater._get_default_wacc` (lines 95-133): exact match on the
lowered hint, then a bidirectional substring match, then the 9% market-wide
default; an empty (falsy) hint goes straight to 9%. -/
def get_default_wacc (industry : String) : ℚ :=
  if industry ≠ "" then
    let il := lowerStr industry
    match default_wacc_mapping.find? (fun e => e.1 = il) with
    | some e => e.2
    | none =>
      match default_wacc_mapping.find?
          (fun e => strContains il e.1 || strContains e.1 il) with
      | some e => e.2
      | none => 9/100
  else 9/100

/-- Row predicate of `DataProcessor.get_industry_wacc` (lines 307-310 and
316-319): region equality plus pandas `str.contains(query, case=False)`,
modelled as case-insensitive substring containment of the query in the label. -/
def wacc_row_match (query region : String) (r : WaccRow) : Bool :=
  r.region = region && strContains (lowerStr r.industry) (lowerStr query)

/-- `DataProcessor.get_industry_wacc` (lines 299-324): first matching row for
the full query, else first matching row for the query's first token
(`industry.split()[0]`, which raises `IndexError` — modelled as `.error` —
when the query has no token), else not-found. -/
def get_industry_wacc (industry region : String) (wacc_df : List WaccRow) :
    Except Unit (Option ℚ) :=
  match wacc_df.find? (wacc_row_match industry region) with
  | some r => .ok (some r.wacc)
  | none =>
    match firstToken industry with
    | none => .error ()
    | some tok =>
      match wacc_df.find? (wacc_row_match tok region) with
      | some r => .ok (some r.wacc)
      | none => .ok none

/-- `WACCUpdater.get_wacc_for_industry` (lines 60-93).  `wacc_index` and
`wacc_data` are the tables loaded after the `ensure_wacc_data` step;
`ensure_failed` models `ensure_wacc_data` returning `False` (both tables
absent and the xls rebuild failed).  A falsy (empty) index dict skips the
index branch; when the index misses, the lookup falls through to the
data-frame query and finally to `_get_default_wacc` — no path returns `None`. -/
def get_wacc_for_industry (ensure_failed : Bool) (wacc_index : Option (List (String × ℚ)))
    (wacc_data : Option (List WaccRow)) (industry region : String) : Except Unit ℚ :=
  if ensure_failed then .ok (get_default_wacc industry)
  else
    let fromIndex : Option ℚ :=
      match wacc_index with
      | some index =>
        if index.isEmpty then none
        else
          match index.find? (fun e => e.1 = region ++ ":" ++ industry) with
          | some e => some e.2
          | none =>
            (index.find? (fun e => strStarts e.1 (region ++ ":")
                && strContains (lowerStr e.1) (lowerStr industry))).map (·.2)
      | none => none
    match fromIndex with
    | some w => .ok w
    | none =>
      match wacc_data with
      | some rows =>
        match get_industry_wacc industry region rows with
        | .error e => .error e
        | .ok (some w) => .ok w
        | .ok none => .ok (get_default_wacc industry)
      | none => .ok (get_default_wacc industry)

/-! ### valuation.py — `ValuationSystem.get_wacc_for_stock` (lines 47-78) -/

/-- Query-time resolution: turbo-cache hit, else live industry fallback for a
truthy industry hint, else for a truthy sector hint, else the module-level
`DEFAULT_WACC` (0.0892) tagged `默认值`.  The Python guard
`if fallback_wacc is not None` is always true, since
`get_wacc_for_industry` returns a float on every non-raising path. -/
def get_wacc_for_stock (is_initialized : Bool) (cache : List (String × CacheEntry))
    (ensure_failed : Bool) (wacc_index : Option (List (String × ℚ)))
    (wacc_data : Option (List WaccRow)) (symbol sector industry : String) :
    Except Unit (ℚ × String × String) :=
  let wacc := get_wacc_direct is_initialized cache symbol
  match mapper_get_stock_info is_initialized cache symbol with
  | some info => .ok (wacc, "Turbo缓存", info.industry)
  | none =>
    if industry ≠ "" then
      match get_wacc_for_industry ensure_failed wacc_index wacc_data industry "US" with
      | .error e => .error e
      | .ok w => .ok (w, "yfinance兜底", industry)
    else if sector ≠ "" then
      match get_wacc_for_industry ensure_failed wacc_index wacc_data sector "US" with
      | .error e => .error e
      | .ok w => .ok (w, "yfinance兜底", sector)
    else .ok (DEFAULT_WACC, "默认值", "未知行业")

/-- Row predicate of the C5 claim rule as the spec words it: the entry's
label contains the query's first token, or the entry's own first token is
contained in the query. -/
def lookup_fuzzy_spec_match (industry tok region : String) (r : WaccRow) : Bool :=
  r.region = region
    && (strContains (lowerStr r.industry) (lowerStr tok)
        || (match firstToken r.industry with
            | some rt => strContains (lowerStr industry) (lowerStr rt)
            | none => false))

/-- Statement of the C5 claim rule, following the spec text: the WACC of the
first catalog entry, in ingestion order and within the region, matching the
non-symmetric substring rule on first tokens. -/
def lookup_fuzzy_spec (wacc_df : List WaccRow) (industry region : String) : Option ℚ :=
  match firstToken industry with
  | none => none
  | some tok => (wacc_df.find? (lookup_fuzzy_spec_match industry tok region)).map (·.wacc)

/-! ### General lemmas about the embedded definitions -/

/-- When the input growth rate already equals the perpetual rate, the fade
blend of `yearGrowthRate` is constant. -/
theorem yearGrowthRate_perpetual (t : ℕ) :
    yearGrowthRate PERPETUAL_GROWTH_RATE t = PERPETUAL_GROWTH_RATE := by
  unfold yearGrowthRate
  split
  · rfl
  · ring

/-- The ten-element shape of the projected cash-flow list. -/
theorem project_future_fcf_eq (latest g : ℚ) :
    project_future_fcf latest g
      = [projectFcf latest g 1, projectFcf latest g 2, projectFcf latest g 3,
         projectFcf latest g 4, projectFcf latest g 5, projectFcf latest g 6,
         projectFcf latest g 7, projectFcf latest g 8, projectFcf latest g 9,
         projectFcf latest g 10] := by
  simp [project_future_fcf, FORECAST_YEARS, List.range_succ]

/-- Evaluation of `calculate_dcf_valuation` when every precondition passes. -/
theorem calculate_dcf_ok (solver : IrrSolver) (sd : StockData) (wacc : ℚ)
    (hnoerr : sd.error = none) (hfcf : ¬ sd.latest_fcf ≤ 0)
    (hw : ¬ wacc ≤ PERPETUAL_GROWTH_RATE)
    (hz : ¬ (sd.shares_outstanding = 0 ∨ sd.current_price = 0)) :
    calculate_dcf_valuation solver sd wacc = .ok {
      symbol := sd.symbol
      current_price := sd.current_price
      intrinsic_value := intrinsic_value sd.latest_fcf sd.growth_rate sd.shares_outstanding wacc
      upside_downside := (intrinsic_value sd.latest_fcf sd.growth_rate sd.shares_outstanding wacc
          - sd.current_price) / sd.current_price
      irr := calculate_irr solver sd.current_price
          (project_future_fcf sd.latest_fcf sd.growth_rate)
          (calculate_terminal_value ((project_future_fcf sd.latest_fcf sd.growth_rate).getLastD 0)
            wacc) sd.shares_outstanding
      wacc := wacc
      growth_rate := sd.growth_rate
      latest_fcf := sd.latest_fcf
      enterprise_value := enterprise_value sd.latest_fcf sd.growth_rate wacc
      terminal_value :=
        calculate_terminal_value ((project_future_fcf sd.latest_fcf sd.growth_rate).getLastD 0) wacc
      pv_terminal :=
        calculate_terminal_value ((project_future_fcf sd.latest_fcf sd.growth_rate).getLastD 0) wacc
          / (1 + wacc) ^ FORECAST_YEARS
      future_fcf := project_future_fcf sd.latest_fcf sd.growth_rate
      pv_fcf := calculate_present_value (project_future_fcf sd.latest_fcf sd.growth_rate) wacc
      shares_outstanding := sd.shares_outstanding
      forecast_years := FORECAST_YEARS
      perpetual_growth_rate := PERPETUAL_GROWTH_RATE } := by
  obtain ⟨e, sym, fcf, g, sh, pr⟩ := sd
  simp only at hnoerr hfcf hw hz
  subst hnoerr
  simp only [calculate_dcf_valuation, if_neg hfcf, if_neg hw, if_neg hz]

/-- Every projected cash flow is zero when the historical growth rate is
exactly -100%. -/
theorem projectFcf_neg_one (latest : ℚ) : ∀ t, 1 ≤ t → projectFcf latest (-1) t = 0 := by
  intro t
  induction t with
  | zero => intro h; exact absurd h (by omega)
  | succ n ih =>
    intro _
    cases n with
    | zero =>
      rw [projectFcf, projectFcf]
      have h : yearGrowthRate (-1) (0 + 1) = -1 := by norm_num [yearGrowthRate]
      rw [h]; ring
    | succ m => rw [projectFcf, ih (by omega)]; ring

/-- Within the ten-year horizon the per-year growth factor stays positive as
long as the historical growth rate is above -100%: for the fade years it is a
convex combination of `1 + growth_rate` and `1 + PERPETUAL_GROWTH_RATE`. -/
theorem onePlusYearGrowth_pos (g : ℚ) (hg : -1 < g) (t : ℕ) (ht : t ≤ 10) :
    0 < 1 + yearGrowthRate g t := by
  unfold yearGrowthRate
  split
  · linarith
  · rename_i h5
    have h6 : 6 ≤ t := by omega
    have htQ : (6 : ℚ) ≤ (t : ℚ) := by exact_mod_cast h6
    have htQ10 : (t : ℚ) ≤ 10 := by exact_mod_cast ht
    have key : 1 + (g * (1 - ((t : ℚ) - 5)/5) + PERPETUAL_GROWTH_RATE * (((t : ℚ) - 5)/5))
        = (1 - ((t : ℚ) - 5)/5) * (1 + g) + (((t : ℚ) - 5)/5) * (1 + PERPETUAL_GROWTH_RATE) := by
      ring
    rw [key]
    have h1 : (0 : ℚ) ≤ 1 - ((t : ℚ) - 5)/5 := by linarith
    have h2 : (0 : ℚ) < ((t : ℚ) - 5)/5 := by linarith
    have h3 : (0 : ℚ) < 1 + PERPETUAL_GROWTH_RATE := by norm_num [PERPETUAL_GROWTH_RATE]
    nlinarith [mul_nonneg h1 (le_of_lt (by linarith : (0 : ℚ) < 1 + g)), mul_pos h2 h3]

/-- Projected cash flows stay strictly positive over the horizon when the
latest figure is positive and the growth rate is above -100%. -/
theorem projectFcf_pos (latest g : ℚ) (hl : 0 < latest) (hg : -1 < g) :
    ∀ t, t ≤ 10 → 0 < projectFcf latest g t := by
  intro t
  induction t with
  | zero => intro _; simpa [projectFcf] using hl
  | succ n ih =>
    intro h
    rw [projectFcf]
    exact mul_pos (ih (by omega)) (onePlusYearGrowth_pos g hg (n + 1) h)

/-- Fully unfolded form of the enterprise value. -/
theorem enterprise_value_eq (latest g w : ℚ) :
    enterprise_value latest g w
      = projectFcf latest g 1 / (1 + w) ^ 1 + projectFcf latest g 2 / (1 + w) ^ 2
        + projectFcf latest g 3 / (1 + w) ^ 3 + projectFcf latest g 4 / (1 + w) ^ 4
        + projectFcf latest g 5 / (1 + w) ^ 5 + projectFcf latest g 6 / (1 + w) ^ 6
        + projectFcf latest g 7 / (1 + w) ^ 7 + projectFcf latest g 8 / (1 + w) ^ 8
        + projectFcf latest g 9 / (1 + w) ^ 9 + projectFcf latest g 10 / (1 + w) ^ 10
        + calculate_terminal_value (projectFcf latest g 10) w / (1 + w) ^ 10 := by
  simp only [enterprise_value, project_future_fcf_eq, calculate_present_value, pvAux,
    List.getLastD, List.sum_cons, List.sum_nil, FORECAST_YEARS]
  norm_num
  ring

/-- Discounting a positive amount by a strictly larger rate strictly shrinks it. -/
theorem div_pow_lt_div_pow (a w1 w2 : ℚ) (ha : 0 < a) (h1 : 0 < 1 + w1) (h12 : w1 < w2)
    (n : ℕ) (hn : n ≠ 0) : a / (1 + w2) ^ n < a / (1 + w1) ^ n := by
  have hpow : (1 + w1) ^ n < (1 + w2) ^ n :=
    pow_lt_pow_left₀ (by linarith) (le_of_lt h1) hn
  exact div_lt_div_of_pos_left ha (pow_pos h1 n) hpow

/-- Any IRR the code reports lies within the sanity bounds. -/
theorem calculate_irr_bounds (solver : IrrSolver) (price : ℚ) (fl : List ℚ) (tv sh r : ℚ)
    (h : calculate_irr solver price fl tv sh = some r) : -(9/10) ≤ r ∧ r ≤ 5 := by
  simp only [calculate_irr] at h
  split at h
  · exact absurd h (by simp)
  · split at h
    · exact absurd h (by simp)
    · split at h
      · exact absurd h (by simp)
      · split at h
        · exact absurd h (by simp)
        · rename_i hb
          push_neg at hb
          cases h
          exact hb

/-- The IRR step returns `none` whenever the solver fails or only produces
out-of-bounds roots. -/
theorem calculate_irr_rejects (solver : IrrSolver) (price : ℚ) (fl : List ℚ) (tv sh : ℚ)
    (hsolver : ∀ cf r, solver cf = some r → r < -(9/10) ∨ r > 5) :
    calculate_irr solver price fl tv sh = none := by
  simp only [calculate_irr]
  by_cases h0 : sh = 0
  · rw [if_pos h0]
  · rw [if_neg h0]
    cases hlast : (fl.map (· / sh)).getLast? with
    | none => rfl
    | some last =>
      cases hsol : solver (irrCashFlows price (fl.map (· / sh)) last (tv / sh)) with
      | none => simp [hsol]
      | some r =>
        simp only [hsol]
        rw [if_pos (hsolver _ r hsol)]

/-- First-match behaviour of `List.find?` over an ordered split. -/
theorem find?_pre_first {α : Type} (p : α → Bool) (pre : List α) (r : α) (suf : List α)
    (hr : p r = true) (hpre : ∀ x ∈ pre, p x = false) :
    (pre ++ r :: suf).find? p = some r := by
  induction pre with
  | nil => simp [List.find?, hr]
  | cons a as ih =>
    have ha : p a = false := hpre a (by simp)
    simp only [List.cons_append, List.find?, ha]
    exact ih (fun x hx => hpre x (by simp [hx]))

/-- The catalog fallback never returns a raw not-found once the query has a
first token: the `IndexError` branch is the only non-`ok` path. -/
theorem get_industry_wacc_ok (industry region : String) (rows : List WaccRow) (tok : String)
    (htok : firstToken industry = some tok) :
    ∃ o, get_industry_wacc industry region rows = .ok o := by
  simp only [get_industry_wacc]
  split
  · exact ⟨_, rfl⟩
  · simp only [htok]
    split
    · exact ⟨_, rfl⟩
    · exact ⟨_, rfl⟩

/-- Behaviour of the live industry fallback once the index tier is out of the
way (`wacc_index` is `None`): data-frame query, then hard-coded defaults. -/
theorem get_wacc_data_step (industry region : String) (wd : Option (List WaccRow)) (tok : String)
    (htok : firstToken industry = some tok) :
    ∃ w, get_wacc_for_industry false none wd industry region = .ok w := by
  cases wd with
  | none => exact ⟨get_default_wacc industry, rfl⟩
  | some rows =>
    obtain ⟨o, ho⟩ := get_industry_wacc_ok industry region rows tok htok
    cases o with
    | none => exact ⟨get_default_wacc industry, by simp [get_wacc_for_industry, ho]⟩
    | some w => exact ⟨w, by simp [get_wacc_for_industry, ho]⟩

/-- A falsy (empty) or missing index dict behaves like no index at all. -/
theorem get_wacc_for_industry_index_miss (index : List (String × ℚ))
    (wd : Option (List WaccRow)) (industry region : String)
    (h : index.isEmpty = true
      ∨ (index.find? (fun e => e.1 = region ++ ":" ++ industry) = none
        ∧ index.find? (fun e => strStarts e.1 (region ++ ":")
            && strContains (lowerStr e.1) (lowerStr industry)) = none)) :
    get_wacc_for_industry false (some index) wd industry region
      = get_wacc_for_industry false none wd industry region := by
  rcases h with he | ⟨h1, h2⟩
  · simp [get_wacc_for_industry, he]
  · simp [get_wacc_for_industry, h1, h2]

/-- The live industry fallback always produces a WACC when the hint has a
first token, whatever tables are loaded. -/
theorem get_wacc_for_industry_ok (ef : Bool) (wi : Option (List (String × ℚ)))
    (wd : Option (List WaccRow)) (industry region tok : String)
    (htok : firstToken industry = some tok) :
    ∃ w, get_wacc_for_industry ef wi wd industry region = .ok w := by
  cases ef with
  | true => exact ⟨get_default_wacc industry, rfl⟩
  | false =>
    cases wi with
    | none => exact get_wacc_data_step industry region wd tok htok
    | some index =>
      by_cases he : index.isEmpty
      · obtain ⟨w, hw⟩ := get_wacc_data_step industry region wd tok htok
        exact ⟨w, by
          rw [get_wacc_for_industry_index_miss index wd industry region (Or.inl he)]
          exact hw⟩
      · cases hdir : index.find? (fun e => e.1 = region ++ ":" ++ industry) with
        | some e => exact ⟨e.2, by simp [get_wacc_for_industry, he, hdir]⟩
        | none =>
          cases hfuz : index.find? (fun e => strStarts e.1 (region ++ ":")
              && strContains (lowerStr e.1) (lowerStr industry)) with
          | some e => exact ⟨e.2, by simp [get_wacc_for_industry, he, hdir, hfuz]⟩
          | none =>
            obtain ⟨w, hw⟩ := get_wacc_data_step industry region wd tok htok
            exact ⟨w, by
              rw [get_wacc_for_industry_index_miss index wd industry region (Or.inr ⟨hdir, hfuz⟩)]
              exact hw⟩

end StockVal

open StockVal

/-- C1: the code projects cash flows from the stock's historical
`growth_rate`, not from the perpetual growth rate: for a valuation input that
passes every precondition check (`latest_fcf = 100 > 0`,
`wacc = 0.09 > 0.025`) but has `growth_rate = 0.10`, the projected cash flow
of year 1 is 110, not the 102.5 the claim requires. -/
theorem C1_counterexample :
    outcomeFutureFcf (calculate_dcf_valuation solverFail
      { error := none, symbol := "X", latest_fcf := 100, growth_rate := 1/10,
        shares_outstanding := 10, current_price := 50 } (9/100))
      = some (project_future_fcf 100 (1/10))
    ∧ (project_future_fcf 100 (1/10)).head? = some 110
    ∧ (110 : ℚ) ≠ 205/2 := by
  refine ⟨?_, ?_, by norm_num⟩
  · rw [calculate_dcf_ok solverFail _ _ rfl (by norm_num) (by norm_num [PERPETUAL_GROWTH_RATE])
      (by norm_num)]
    rfl
  · rw [project_future_fcf_eq]
    norm_num [projectFcf, yearGrowthRate]

/-- C1 (amended): the projection grows each year's figure from the prior one
at the stock's historical growth rate for years 1-5 and at a linear blend
fading to the perpetual rate for years 6-10; growth is uniformly the
perpetual rate exactly when the stock's growth rate equals it, in which case
the concrete scenario of the claim holds: `future_fcf[1] = 102.5` and
`future_fcf[10] = 100·(1.025)^10`. -/
theorem C1_amended_projection :
    (∀ (g : ℚ) (t : ℕ), t ≤ 5 → yearGrowthRate g t = g)
    ∧ (∀ (g : ℚ) (t : ℕ), 6 ≤ t → yearGrowthRate g t
        = g * (1 - ((t : ℚ) - 5)/5) + PERPETUAL_GROWTH_RATE * (((t : ℚ) - 5)/5))
    ∧ (∀ (latest : ℚ) (t : ℕ), projectFcf latest PERPETUAL_GROWTH_RATE t
        = latest * (1 + PERPETUAL_GROWTH_RATE) ^ t)
    ∧ (project_future_fcf 100 PERPETUAL_GROWTH_RATE).head? = some (205/2)
    ∧ (project_future_fcf 100 PERPETUAL_GROWTH_RATE).getLast? = some (100 * (41/40 : ℚ) ^ 10) := by
  have hpow : ∀ (latest : ℚ) (t : ℕ), projectFcf latest PERPETUAL_GROWTH_RATE t
      = latest * (1 + PERPETUAL_GROWTH_RATE) ^ t := by
    intro latest t
    induction t with
    | zero => simp [projectFcf]
    | succ n ih =>
      rw [projectFcf, ih, yearGrowthRate_perpetual, pow_succ]
      ring
  refine ⟨?_, ?_, hpow, ?_, ?_⟩
  · intro g t ht
    simp [yearGrowthRate, ht]
  · intro g t ht
    have h5 : ¬ t ≤ 5 := by omega
    simp [yearGrowthRate, h5]
  · rw [project_future_fcf_eq]
    simp only [hpow]
    norm_num [PERPETUAL_GROWTH_RATE]
  · rw [project_future_fcf_eq]
    simp only [hpow]
    norm_num [PERPETUAL_GROWTH_RATE]

/-- Witness for `C1_amended_projection` at concrete inputs. -/
theorem C1_amended_projection_witness :
    yearGrowthRate (1/10 : ℚ) 3 = 1/10
    ∧ yearGrowthRate (1/10 : ℚ) 8 = (1/10) * (1 - ((8 : ℚ) - 5)/5)
        + PERPETUAL_GROWTH_RATE * (((8 : ℚ) - 5)/5)
    ∧ projectFcf 100 PERPETUAL_GROWTH_RATE 2 = 100 * (1 + PERPETUAL_GROWTH_RATE) ^ 2 :=
  ⟨C1_amended_projection.1 (1/10) 3 (by decide),
   C1_amended_projection.2.1 (1/10) 8 (by decide),
   C1_amended_projection.2.2.1 100 2⟩

/-- C3: with no ambient error on the input, `calculate_dcf_valuation` returns
the invalid-free-cash-flow error exactly when `latest_fcf ≤ 0` and the
discount-rate-too-low error exactly when `latest_fcf > 0` yet
`wacc ≤ PERPETUAL_GROWTH_RATE`; both come back as error values of the sum
type, which by construction carry no valuation result. -/
theorem C3_precondition_errors (solver : IrrSolver) (sd : StockData) (wacc : ℚ)
    (hnoerr : sd.error = none) :
    (calculate_dcf_valuation solver sd wacc = .err .invalidFreeCashFlow
      ↔ sd.latest_fcf ≤ 0)
    ∧ (calculate_dcf_valuation solver sd wacc = .err .discountRateTooLow
      ↔ 0 < sd.latest_fcf ∧ wacc ≤ PERPETUAL_GROWTH_RATE) := by
  unfold calculate_dcf_valuation
  rw [hnoerr]
  by_cases h1 : sd.latest_fcf ≤ 0
  · simp [h1]
  · by_cases h2 : wacc ≤ PERPETUAL_GROWTH_RATE
    · simp [h1, h2, lt_of_not_le h1]
    · by_cases h3 : sd.shares_outstanding = 0 ∨ sd.current_price = 0 <;>
        simp [h1, h2, h3]

/-- Witness for `C3_precondition_errors` on a concrete negative-FCF input. -/
theorem C3_precondition_errors_witness :
    (calculate_dcf_valuation solverFail
        { error := none, symbol := "X", latest_fcf := -5, growth_rate := 0,
          shares_outstanding := 10, current_price := 50 } (9/100)
      = .err .invalidFreeCashFlow ↔ (-5 : ℚ) ≤ 0)
    ∧ (calculate_dcf_valuation solverFail
        { error := none, symbol := "X", latest_fcf := -5, growth_rate := 0,
          shares_outstanding := 10, current_price := 50 } (9/100)
      = .err .discountRateTooLow ↔ 0 < (-5 : ℚ) ∧ (9/100 : ℚ) ≤ PERPETUAL_GROWTH_RATE) :=
  C3_precondition_errors solverFail
    { error := none, symbol := "X", latest_fcf := -5, growth_rate := 0,
      shares_outstanding := 10, current_price := 50 } (9/100) rfl

/-- C7: the claimed invariant fails on the code: for the passing input
`latest_fcf = 100 > 0`, `wacc = 0.09 > 0.025` but `growth_rate = -1` (a
-100% historical growth rate, which no precondition rejects), every projected
cash flow is zero and the enterprise value is 0, not strictly positive. -/
theorem C7_counterexample :
    outcomeEnterprise (calculate_dcf_valuation solverFail
      { error := none, symbol := "X", latest_fcf := 100, growth_rate := -1,
        shares_outstanding := 10, current_price := 50 } (9/100)) = some 0
    ∧ (0 : ℚ) < 100
    ∧ PERPETUAL_GROWTH_RATE < 9/100
    ∧ ¬ (0 : ℚ) < 0 := by
  refine ⟨?_, by norm_num, by norm_num [PERPETUAL_GROWTH_RATE], by norm_num⟩
  norm_num [outcomeEnterprise, calculate_dcf_valuation, enterprise_value, intrinsic_value,
    project_future_fcf, FORECAST_YEARS, List.range_succ, projectFcf, yearGrowthRate,
    PERPETUAL_GROWTH_RATE, calculate_present_value, pvAux, calculate_terminal_value,
    calculate_irr, irrCashFlows, solverFail]


/-- C7 (amended): with `latest_fcf > 0`, `wacc > perpetual growth rate` and
additionally `growth_rate > -1` (a condition the code does not check but
without which the projection can collapse to zero or oscillate in sign), the
enterprise value is strictly positive. -/
theorem C7_amended_enterprise_pos (latest g w : ℚ) (hl : 0 < latest) (hg : -1 < g)
    (hw : PERPETUAL_GROWTH_RATE < w) : 0 < enterprise_value latest g w := by
  have hg0 : (1 : ℚ)/40 < w := by norm_num [PERPETUAL_GROWTH_RATE] at hw; exact hw
  have hwpos : (0 : ℚ) < 1 + w := by linarith
  have hfp : ∀ t, t ≤ 10 → 0 < projectFcf latest g t := projectFcf_pos latest g hl hg
  rw [enterprise_value_eq]
  have hterm : 0 < calculate_terminal_value (projectFcf latest g 10) w := by
    unfold calculate_terminal_value
    apply div_pos
    · exact mul_pos (hfp 10 (by norm_num)) (by norm_num [PERPETUAL_GROWTH_RATE])
    · have : PERPETUAL_GROWTH_RATE = (1 : ℚ)/40 := rfl
      rw [this]; linarith
  have t1 := div_pos (hfp 1 (by norm_num)) (pow_pos hwpos 1)
  have t2 := div_pos (hfp 2 (by norm_num)) (pow_pos hwpos 2)
  have t3 := div_pos (hfp 3 (by norm_num)) (pow_pos hwpos 3)
  have t4 := div_pos (hfp 4 (by norm_num)) (pow_pos hwpos 4)
  have t5 := div_pos (hfp 5 (by norm_num)) (pow_pos hwpos 5)
  have t6 := div_pos (hfp 6 (by norm_num)) (pow_pos hwpos 6)
  have t7 := div_pos (hfp 7 (by norm_num)) (pow_pos hwpos 7)
  have t8 := div_pos (hfp 8 (by norm_num)) (pow_pos hwpos 8)
  have t9 := div_pos (hfp 9 (by norm_num)) (pow_pos hwpos 9)
  have t10 := div_pos (hfp 10 (by norm_num)) (pow_pos hwpos 10)
  have t11 := div_pos hterm (pow_pos hwpos 10)
  linarith

/-- Witness for `C7_amended_enterprise_pos` at a concrete passing input. -/
theorem C7_amended_enterprise_pos_witness :
    0 < enterprise_value 100 (1/10) (9/100) :=
  C7_amended_enterprise_pos 100 (1/10) (9/100) (by norm_num) (by norm_num)
    (by norm_num [PERPETUAL_GROWTH_RATE])

/-- C8: strict monotonicity in the discount rate fails as claimed: with
`growth_rate = -1` (all projected cash flows zero) the intrinsic value is 0
at both `wacc = 0.05` and `wacc = 0.09`, although both rates exceed the
perpetual growth rate — the value at the smaller rate is not strictly larger. -/
theorem C8_counterexample :
    outcomeIntrinsic (calculate_dcf_valuation solverFail
      { error := none, symbol := "X", latest_fcf := 100, growth_rate := -1,
        shares_outstanding := 10, current_price := 50 } (1/20)) = some 0
    ∧ outcomeIntrinsic (calculate_dcf_valuation solverFail
      { error := none, symbol := "X", latest_fcf := 100, growth_rate := -1,
        shares_outstanding := 10, current_price := 50 } (9/100)) = some 0
    ∧ PERPETUAL_GROWTH_RATE < 1/20 ∧ (1/20 : ℚ) < 9/100
    ∧ ¬ ((0 : ℚ) < 0) := by
  refine ⟨?_, ?_, by norm_num [PERPETUAL_GROWTH_RATE], by norm_num, by norm_num⟩ <;>
    norm_num [outcomeIntrinsic, calculate_dcf_valuation, enterprise_value, intrinsic_value,
      project_future_fcf, FORECAST_YEARS, List.range_succ, projectFcf, yearGrowthRate,
      PERPETUAL_GROWTH_RATE, calculate_present_value, pvAux, calculate_terminal_value,
      calculate_irr, irrCashFlows, solverFail]

/-- C8 (amended): with the extra hypothesis `growth_rate > -1` (plus positive
latest cash flow and share count), the intrinsic value per share is strictly
decreasing in the discount rate: for perpetual rate < w1 < w2, the valuation
at w1 is strictly larger. -/
theorem C8_amended_monotonic (latest g shares w1 w2 : ℚ) (hl : 0 < latest) (hg : -1 < g)
    (hs : 0 < shares) (h1 : PERPETUAL_GROWTH_RATE < w1) (h12 : w1 < w2) :
    intrinsic_value latest g shares w2 < intrinsic_value latest g shares w1 := by
  unfold intrinsic_value
  rw [div_lt_div_iff_of_pos_right hs]
  have hg0 : (1 : ℚ)/40 < w1 := by norm_num [PERPETUAL_GROWTH_RATE] at h1; exact h1
  have h1p : (0 : ℚ) < 1 + w1 := by linarith
  have h2p : (0 : ℚ) < 1 + w2 := by linarith
  have hfp : ∀ t, t ≤ 10 → 0 < projectFcf latest g t := projectFcf_pos latest g hl hg
  rw [enterprise_value_eq, enterprise_value_eq]
  have d1 := div_pow_lt_div_pow (projectFcf latest g 1) w1 w2 (hfp 1 (by norm_num)) h1p h12 1
    (by norm_num)
  have d2 := div_pow_lt_div_pow (projectFcf latest g 2) w1 w2 (hfp 2 (by norm_num)) h1p h12 2
    (by norm_num)
  have d3 := div_pow_lt_div_pow (projectFcf latest g 3) w1 w2 (hfp 3 (by norm_num)) h1p h12 3
    (by norm_num)
  have d4 := div_pow_lt_div_pow (projectFcf latest g 4) w1 w2 (hfp 4 (by norm_num)) h1p h12 4
    (by norm_num)
  have d5 := div_pow_lt_div_pow (projectFcf latest g 5) w1 w2 (hfp 5 (by norm_num)) h1p h12 5
    (by norm_num)
  have d6 := div_pow_lt_div_pow (projectFcf latest g 6) w1 w2 (hfp 6 (by norm_num)) h1p h12 6
    (by norm_num)
  have d7 := div_pow_lt_div_pow (projectFcf latest g 7) w1 w2 (hfp 7 (by norm_num)) h1p h12 7
    (by norm_num)
  have d8 := div_pow_lt_div_pow (projectFcf latest g 8) w1 w2 (hfp 8 (by norm_num)) h1p h12 8
    (by norm_num)
  have d9 := div_pow_lt_div_pow (projectFcf latest g 9) w1 w2 (hfp 9 (by norm_num)) h1p h12 9
    (by norm_num)
  have d10 := div_pow_lt_div_pow (projectFcf latest g 10) w1 w2 (hfp 10 (by norm_num)) h1p h12 10
    (by norm_num)
  have hterm : calculate_terminal_value (projectFcf latest g 10) w2 / (1 + w2) ^ 10
      < calculate_terminal_value (projectFcf latest g 10) w1 / (1 + w1) ^ 10 := by
    unfold calculate_terminal_value
    rw [div_div, div_div]
    have hPG : PERPETUAL_GROWTH_RATE = (1 : ℚ)/40 := rfl
    have hnum : 0 < projectFcf latest g 10 * (1 + PERPETUAL_GROWTH_RATE) :=
      mul_pos (hfp 10 (by norm_num)) (by norm_num [PERPETUAL_GROWTH_RATE])
    have hden1 : 0 < (w1 - PERPETUAL_GROWTH_RATE) * (1 + w1) ^ 10 := by
      apply mul_pos
      · rw [hPG]; linarith
      · exact pow_pos h1p 10
    have hlt : (w1 - PERPETUAL_GROWTH_RATE) * (1 + w1) ^ 10
        < (w2 - PERPETUAL_GROWTH_RATE) * (1 + w2) ^ 10 := by
      apply mul_lt_mul''
      · linarith
      · exact pow_lt_pow_left₀ (by linarith) (le_of_lt h1p) (by norm_num)
      · rw [hPG]; linarith
      · exact le_of_lt (pow_pos h1p 10)
    exact div_lt_div_of_pos_left hnum hden1 hlt
  linarith

/-- Witness for `C8_amended_monotonic` at concrete discount rates. -/
theorem C8_amended_monotonic_witness :
    intrinsic_value 100 (1/10) 10 (9/100) < intrinsic_value 100 (1/10) 10 (1/20) :=
  C8_amended_monotonic 100 (1/10) 10 (1/20) (9/100) (by norm_num) (by norm_num)
    (by norm_num) (by norm_num [PERPETUAL_GROWTH_RATE]) (by norm_num)

/-- C4: the IRR root is accepted only inside [-0.9, 5.0]; when the solver
fails or only delivers out-of-bounds roots (such as r = 6.0), the valuation
still succeeds, its IRR field is null rather than an error, and the intrinsic
value is the usual one. -/
theorem C4_irr_bound_enforcement (solver : IrrSolver) (sd : StockData) (wacc : ℚ)
    (hnoerr : sd.error = none) (hfcf : 0 < sd.latest_fcf)
    (hw : PERPETUAL_GROWTH_RATE < wacc) (hs : sd.shares_outstanding ≠ 0)
    (hp : sd.current_price ≠ 0)
    (hsolver : ∀ cf r, solver cf = some r → r < -(9/10) ∨ r > 5) :
    (∀ (price : ℚ) (fl : List ℚ) (tv sh r : ℚ),
      calculate_irr solver price fl tv sh = some r → -(9/10) ≤ r ∧ r ≤ 5)
    ∧ ∃ res, calculate_dcf_valuation solver sd wacc = .ok res ∧ res.irr = none
        ∧ res.intrinsic_value
            = intrinsic_value sd.latest_fcf sd.growth_rate sd.shares_outstanding wacc := by
  constructor
  · intro price fl tv sh r h
    exact calculate_irr_bounds solver price fl tv sh r h
  · refine ⟨_, calculate_dcf_ok solver sd wacc hnoerr (not_le.mpr hfcf) (not_le.mpr hw)
      (by push_neg; exact ⟨hs, hp⟩), ?_, rfl⟩
    show calculate_irr solver sd.current_price
        (project_future_fcf sd.latest_fcf sd.growth_rate)
        (calculate_terminal_value ((project_future_fcf sd.latest_fcf sd.growth_rate).getLastD 0)
          wacc) sd.shares_outstanding = none
    exact calculate_irr_rejects solver _ _ _ _ hsolver

/-- Witness for `C4_irr_bound_enforcement`: a solver that always reports
the out-of-bounds root 6.0 yields a successful valuation with a null IRR. -/
theorem C4_irr_bound_enforcement_witness :
    ∃ res, calculate_dcf_valuation (fun _ => some 6)
        { error := none, symbol := "X", latest_fcf := 100, growth_rate := 1/10,
          shares_outstanding := 10, current_price := 50 } (9/100) = .ok res
      ∧ res.irr = none
      ∧ res.intrinsic_value = intrinsic_value 100 (1/10) 10 (9/100) :=
  (C4_irr_bound_enforcement (fun _ => some 6)
    { error := none, symbol := "X", latest_fcf := 100, growth_rate := 1/10,
      shares_outstanding := 10, current_price := 50 } (9/100) rfl (by norm_num)
    (by norm_num [PERPETUAL_GROWTH_RATE]) (by norm_num) (by norm_num)
    (fun cf r h => Or.inr (by injection h with h2; rw [← h2]; norm_num))).2

/-- C9: `calculate_dcf_valuation` is a total function into the outcome sum
type (it never raises): an ambient error on the input is propagated verbatim
as an error result, a successful result implies there was no ambient error
and every precondition held, and the division-by-zero exceptions that Python
would raise inside the `try` surface as `calcFailed` error values. -/
theorem C9_total_error_handling (solver : IrrSolver) (sd : StockData) (wacc : ℚ) :
    (∀ msg, sd.error = some msg →
      calculate_dcf_valuation solver sd wacc = .err (.propagated msg))
    ∧ (∀ r, calculate_dcf_valuation solver sd wacc = .ok r →
        sd.error = none ∧ 0 < sd.latest_fcf ∧ PERPETUAL_GROWTH_RATE < wacc
          ∧ sd.shares_outstanding ≠ 0 ∧ sd.current_price ≠ 0)
    ∧ (sd.error = none → ¬ sd.latest_fcf ≤ 0 → ¬ wacc ≤ PERPETUAL_GROWTH_RATE →
        (sd.shares_outstanding = 0 ∨ sd.current_price = 0) →
        ∃ msg, calculate_dcf_valuation solver sd wacc = .err (.calcFailed msg)) := by
  refine ⟨?_, ?_, ?_⟩
  · intro msg hmsg
    simp only [calculate_dcf_valuation, hmsg]
  · intro r hr
    cases herr : sd.error with
    | some m =>
      rw [calculate_dcf_valuation, herr] at hr
      exact absurd hr (by simp)
    | none =>
      rw [calculate_dcf_valuation, herr] at hr
      by_cases h1 : sd.latest_fcf ≤ 0
      · rw [if_pos h1] at hr; exact absurd hr (by simp)
      · by_cases h2 : wacc ≤ PERPETUAL_GROWTH_RATE
        · rw [if_neg h1, if_pos h2] at hr; exact absurd hr (by simp)
        · by_cases h3 : sd.shares_outstanding = 0 ∨ sd.current_price = 0
          · rw [if_neg h1, if_neg h2, if_pos h3] at hr; exact absurd hr (by simp)
          · push_neg at h3
            exact ⟨rfl, lt_of_not_le h1, lt_of_not_le h2, h3.1, h3.2⟩
  · intro h0 h1 h2 h3
    refine ⟨"DCF计算失败: division by zero", ?_⟩
    rw [calculate_dcf_valuation, h0, if_neg h1, if_neg h2, if_pos h3]

/-- Witness for `C9_total_error_handling`: a carried error is propagated. -/
theorem C9_total_error_handling_witness :
    calculate_dcf_valuation solverFail
      { error := some "boom", symbol := "X", latest_fcf := 100, growth_rate := 0,
        shares_outstanding := 10, current_price := 50 } (9/100)
      = .err (.propagated "boom") :=
  (C9_total_error_handling solverFail
    { error := some "boom", symbol := "X", latest_fcf := 100, growth_rate := 0,
      shares_outstanding := 10, current_price := 50 } (9/100)).1 "boom" rfl

/-- C2: the 12% default is a build-time constant only.  At query time,
`ValuationSystem.get_wacc_for_stock` never uses 0.12: for a symbol absent
from the index with an industry hint whose live cascade finds nothing, it
returns the 9% market default of `_get_default_wacc` (0.09 ≠ 0.12), and with
no hint at all it returns the module constant `DEFAULT_WACC = 0.0892 ≠ 0.12`. -/
theorem C2_counterexample :
    get_wacc_for_stock true [] false none (some []) "XYZ" "" "zzfoo"
      = .ok (9/100, "yfinance兜底", "zzfoo")
    ∧ get_wacc_for_stock true [] false none none "XYZ" "" ""
      = .ok (DEFAULT_WACC, "默认值", "未知行业")
    ∧ (9/100 : ℚ) ≠ 3/25 ∧ DEFAULT_WACC ≠ 3/25 := by
  refine ⟨?_, ?_, by norm_num, by norm_num [DEFAULT_WACC]⟩
  · have e1 : (default_wacc_mapping.find? fun e => e.1 = lowerStr "zzfoo") = none := by decide
    have e2 : (default_wacc_mapping.find? fun e =>
        strContains (lowerStr "zzfoo") e.1 || strContains e.1 (lowerStr "zzfoo")) = none := by
      decide
    have hne : ("zzfoo" : String) ≠ "" := by decide
    have ht : firstToken "zzfoo" = some "zzfoo" := by decide
    simp [get_wacc_for_stock, mapper_get_stock_info, get_stock_wacc, stripStr,
      get_wacc_for_industry, get_industry_wacc, get_default_wacc, e1, e2, hne, ht]
  · simp [get_wacc_for_stock, mapper_get_stock_info, get_stock_wacc, stripStr]

/-- C2 (amended): at build time a ticker whose industry misses the exact and
fuzzy lookups in its own region and in the US table gets the 12% default with
resolution source `默认值` (Default), and the resolution is total — it always
delivers a (wacc, source) pair; at query time a symbol absent from the index
with no industry or sector hint degrades to `DEFAULT_WACC = 0.0892`, also
tagged `默认值`, never to null and never via an exception. -/
theorem C2_amended_default_tier (wacc_lookup : List ((String × String) × ℚ))
    (industry country : String)
    (h1 : lookupExact wacc_lookup
      (lowerStr (stripStr industry), country_region country) = none)
    (h2 : findFuzzy wacc_lookup (country_region country) (lowerStr (stripStr industry)) = none)
    (h3 : lookupExact wacc_lookup (lowerStr (stripStr industry), "US") = none)
    (h4 : findFuzzy wacc_lookup "US" (lowerStr (stripStr industry)) = none) :
    resolveWacc wacc_lookup industry country = (3/25, "默认值")
    ∧ ∀ (init : Bool) (cache : List (String × CacheEntry)) (ef : Bool)
        (wi : Option (List (String × ℚ))) (wd : Option (List WaccRow)) (symbol : String),
        get_stock_wacc init cache symbol = none →
        get_wacc_for_stock init cache ef wi wd symbol "" ""
          = .ok (DEFAULT_WACC, "默认值", "未知行业") := by
  constructor
  · by_cases hr : country_region country = "US"
    · simp [resolveWacc, h1, h2, h3, h4, hr]
    · simp [resolveWacc, h1, h2, h3, h4, hr]
  · intro init cache ef wi wd symbol hstock
    cases init <;> simp [get_wacc_for_stock, mapper_get_stock_info, hstock]

/-- Witness for `C2_amended_default_tier` on an empty catalog. -/
theorem C2_amended_default_tier_witness :
    resolveWacc [] "Software" "France" = (3/25, "默认值") :=
  (C2_amended_default_tier [] "Software" "France" rfl rfl rfl rfl).1

/-- C5: the code's fuzzy lookup disagrees with the claimed first-token rule.
On the catalog `[("skiing", US, 0.07), ("ski gear shops", US, 0.08)]` and the
query "ski gear", the code's first pass matches the whole query as a
substring and returns 0.08 from the second entry, while the claimed rule
(first entry whose label contains the first token "ski", or vice versa)
selects 0.07 from the first entry. -/
theorem C5_counterexample :
    get_industry_wacc "ski gear" "US"
      [⟨"skiing", "US", 7/100⟩, ⟨"ski gear shops", "US", 2/25⟩] = .ok (some (2/25))
    ∧ lookup_fuzzy_spec [⟨"skiing", "US", 7/100⟩, ⟨"ski gear shops", "US", 2/25⟩]
        "ski gear" "US" = some (7/100)
    ∧ (2/25 : ℚ) ≠ 7/100 := by
  refine ⟨?_, ?_, by norm_num⟩
  · have h1 : wacc_row_match "ski gear" "US" ⟨"skiing", "US", 7/100⟩ = false := by decide
    have h2 : wacc_row_match "ski gear" "US" ⟨"ski gear shops", "US", 2/25⟩ = true := by decide
    simp [get_industry_wacc, List.find?, h1, h2]
  · have ht : firstToken "ski gear" = some "ski" := by decide
    have h1 : lookup_fuzzy_spec_match "ski gear" "ski" "US" ⟨"skiing", "US", 7/100⟩ = true := by
      decide
    simp [lookup_fuzzy_spec, ht, List.find?, h1]

/-- C5 (amended): the fuzzy lookup is a two-pass, first-match scan in
ingestion order, restricted to the region, with one-directional
(query-inside-label, case-insensitive) containment: the first pass uses the
whole query, and only when no row matches it does a second pass use the
query's first whitespace token; when both passes fail the result is
not-found. -/
theorem C5_amended_first_match (industry region : String) (pre suf : List WaccRow) (r : WaccRow) :
    (wacc_row_match industry region r = true →
      (∀ x ∈ pre, wacc_row_match industry region x = false) →
      get_industry_wacc industry region (pre ++ r :: suf) = .ok (some r.wacc))
    ∧ (∀ tok, firstToken industry = some tok →
        (∀ x ∈ pre ++ r :: suf, wacc_row_match industry region x = false) →
        wacc_row_match tok region r = true →
        (∀ x ∈ pre, wacc_row_match tok region x = false) →
        get_industry_wacc industry region (pre ++ r :: suf) = .ok (some r.wacc))
    ∧ (∀ tok, firstToken industry = some tok →
        (∀ x ∈ pre ++ r :: suf, wacc_row_match industry region x = false) →
        (∀ x ∈ pre ++ r :: suf, wacc_row_match tok region x = false) →
        get_industry_wacc industry region (pre ++ r :: suf) = .ok none) := by
  refine ⟨?_, ?_, ?_⟩
  · intro hr hpre
    simp [get_industry_wacc, find?_pre_first _ pre r suf hr hpre]
  · intro tok htok hall hr hpre
    have hnone : (pre ++ r :: suf).find? (wacc_row_match industry region) = none :=
      List.find?_eq_none.mpr (by intro x hx; simp [hall x hx])
    simp [get_industry_wacc, hnone, htok, find?_pre_first _ pre r suf hr hpre]
  · intro tok htok hall1 hall2
    have hnone1 : (pre ++ r :: suf).find? (wacc_row_match industry region) = none :=
      List.find?_eq_none.mpr (by intro x hx; simp [hall1 x hx])
    have hnone2 : (pre ++ r :: suf).find? (wacc_row_match tok region) = none :=
      List.find?_eq_none.mpr (by intro x hx; simp [hall2 x hx])
    simp [get_industry_wacc, hnone1, hnone2, htok]

/-- Witness for `C5_amended_first_match` on a one-row catalog. -/
theorem C5_amended_first_match_witness :
    get_industry_wacc "tech" "US" ([] ++ (⟨"tech", "US", 1/2⟩ : WaccRow) :: [])
      = .ok (some ((⟨"tech", "US", 1/2⟩ : WaccRow).wacc)) :=
  (C5_amended_first_match "tech" "US" [] [] ⟨"tech", "US", 1/2⟩).1 (by decide)
    (fun x hx => absurd hx (List.not_mem_nil x))

/-- C6: `_load_from_cache` returns absent on a missing payload file and on a
corrupt payload (and `_initialize` then rebuilds), but the stored
`cache_version` is never read back: a cache carrying version "1.0" while the
code writes "2.0" is loaded and trusted, and no rebuild is triggered —
the schema-version-mismatch rejection the claim requires does not exist. -/
theorem C6_version_never_validated :
    load_from_cache ⟨.missing, some CACHE_VERSION⟩ = none
    ∧ load_from_cache ⟨.corrupt, some CACHE_VERSION⟩ = none
    ∧ initialize_rebuilds ⟨.missing, some CACHE_VERSION⟩ = true
    ∧ initialize_rebuilds ⟨.corrupt, some CACHE_VERSION⟩ = true
    ∧ ("1.0" : String) ≠ CACHE_VERSION
    ∧ load_from_cache ⟨.valid [("AAPL", ⟨9/100, "Software", "Apple Inc", "Technology"⟩)],
        some "1.0"⟩
      = some [("AAPL", ⟨9/100, "Software", "Apple Inc", "Technology"⟩)]
    ∧ initialize_rebuilds ⟨.valid [("AAPL", ⟨9/100, "Software", "Apple Inc", "Technology"⟩)],
        some "1.0"⟩ = false :=
  ⟨rfl, rfl, rfl, rfl, by decide, rfl, rfl⟩

/-- C10: the live fallback is not total for every supplied hint: a
whitespace-only industry hint (truthy in Python) that misses the loaded table
reaches `industry.split()[0]`, which raises `IndexError` — the resolver
propagates the exception instead of returning a WACC. -/
theorem C10_counterexample :
    get_wacc_for_industry false none (some [⟨"retail", "US", 9/100⟩]) " " "US" = .error ()
    ∧ get_wacc_for_stock true [] false none (some [⟨"retail", "US", 9/100⟩]) "XYZ" "" " "
      = .error () := by
  have h1 : wacc_row_match " " "US" ⟨"retail", "US", 9/100⟩ = false := by decide
  have ht : firstToken " " = none := by decide
  have hne : (" " : String) ≠ "" := by decide
  constructor
  · simp [get_wacc_for_industry, get_industry_wacc, List.find?, h1, ht]
  · simp [get_wacc_for_stock, mapper_get_stock_info, get_stock_wacc, stripStr,
      get_wacc_for_industry, get_industry_wacc, List.find?, h1, ht, hne]

/-- C10 (amended): for any hint with at least one non-whitespace token the
live fallback `get_wacc_for_industry` always returns a WACC; a hint absent
from the loaded tables falls through to the hard-coded 20-entry default table
(exact match, then bidirectional substring) and finally to the 9% market-wide
default; and the resolver's terminal `DEFAULT_WACC` branch is reachable only
when neither an industry nor a sector hint is given. -/
theorem C10_fallback_structure (ef : Bool) (wi : Option (List (String × ℚ)))
    (wd : Option (List WaccRow)) (industry region : String) :
    (∀ tok, firstToken industry = some tok →
      ∃ w, get_wacc_for_industry ef wi wd industry region = .ok w)
    ∧ (∀ rows tok, ef = false → wi = none → wd = some rows →
        firstToken industry = some tok →
        (∀ x ∈ rows, wacc_row_match industry region x = false) →
        (∀ x ∈ rows, wacc_row_match tok region x = false) →
        get_wacc_for_industry ef wi wd industry region = .ok (get_default_wacc industry))
    ∧ (industry ≠ "" →
        (default_wacc_mapping.find? fun e => e.1 = lowerStr industry) = none →
        (default_wacc_mapping.find? fun e =>
          strContains (lowerStr industry) e.1 || strContains e.1 (lowerStr industry)) = none →
        get_default_wacc industry = 9/100)
    ∧ (∀ (init : Bool) (cache : List (String × CacheEntry)) (symbol sector : String)
        (res : ℚ × String × String),
        get_wacc_for_stock init cache ef wi wd symbol sector industry = .ok res →
        res.2.1 = "默认值" → industry = "" ∧ sector = "") := by
  refine ⟨?_, ?_, ?_, ?_⟩
  · intro tok htok
    exact get_wacc_for_industry_ok ef wi wd industry region tok htok
  · intro rows tok hef hwi hwd htok hall1 hall2
    subst hef; subst hwi; subst hwd
    have hnone1 : rows.find? (wacc_row_match industry region) = none :=
      List.find?_eq_none.mpr (by intro x hx; simp [hall1 x hx])
    have hnone2 : rows.find? (wacc_row_match tok region) = none :=
      List.find?_eq_none.mpr (by intro x hx; simp [hall2 x hx])
    simp [get_wacc_for_industry, get_industry_wacc, hnone1, hnone2, htok]
  · intro hne e1 e2
    simp [get_default_wacc, e1, e2, hne]
  · intro init cache symbol sector res hok hsrc
    simp only [get_wacc_for_stock] at hok
    cases hinfo : mapper_get_stock_info init cache symbol with
    | some info =>
      simp only [hinfo] at hok
      cases hok
      simp at hsrc
    | none =>
      simp only [hinfo] at hok
      by_cases hind : industry ≠ ""
      · rw [if_pos hind] at hok
        cases hq : get_wacc_for_industry ef wi wd industry "US" with
        | error e => rw [hq] at hok; exact absurd hok (by simp)
        | ok w =>
          rw [hq] at hok
          cases hok
          simp at hsrc
      · rw [if_neg hind] at hok
        by_cases hsec : sector ≠ ""
        · rw [if_pos hsec] at hok
          cases hq : get_wacc_for_industry ef wi wd sector "US" with
          | error e => rw [hq] at hok; exact absurd hok (by simp)
          | ok w =>
            rw [hq] at hok
            cases hok
            simp at hsrc
        · push_neg at hind hsec
          exact ⟨hind, hsec⟩

/-- Witness for `C10_fallback_structure` on a concrete hint. -/
theorem C10_fallback_structure_witness :
    ∃ w, get_wacc_for_industry false none none "Software" "US" = .ok w :=
  (C10_fallback_structure false none none "Software" "US").1 "Software" (by decide)
